import Mathlib

/-!
Shallow embedding of the `gol` asynchronous logging engine (src/gol.go) and
proofs about its level filtering, lifecycle, rotation, purge and error paths.

Machine integers are modelled as `Int`/`Nat` (Go `int`/`int64` values reached
by the modelled code never overflow 64 bits), file handles as explicit record
fields, and the I/O environment (stat / rename / reopen / remove outcomes) as
explicit oracle parameters.  Side effects that the claims observe (stderr
logging via Go's `log` package, file writes, `os.Exit`) are collected in an
event trace.
-/

namespace Gol

/-! ### Decimal rendering, modelling Go's `strconv.Itoa` / `strconv.FormatInt` -/

/-- Digit-by-digit decimal rendering; `fuel` bounds the recursion (any
`fuel ≥ n` gives the exact decimal digits of `n`). -/
def itoaAux : Nat → Nat → List Char
  | 0, _ => []
  | fuel + 1, n => if n = 0 then [] else itoaAux fuel (n / 10) ++ [Nat.digitChar (n % 10)]

/-- Decimal rendering of a natural number, as `strconv.Itoa` renders a
non-negative Go `int`. -/
def itoa (n : Nat) : String := if n = 0 then "0" else String.mk (itoaAux n n)

/-- Decimal rendering of an integer, as `strconv.FormatInt i 10`. -/
def intStr (i : Int) : String := if i < 0 then "-" ++ itoa i.natAbs else itoa i.natAbs

/-- Inverse of `Nat.digitChar` on decimal digits. -/
def charToDigit (c : Char) : Nat := c.toNat - 48

/-- Decimal parse of a character list, left inverse of `itoaAux`. -/
def ofChars (l : List Char) : Nat := l.foldl (fun a c => a * 10 + charToDigit c) 0

/-! ### Formatter (src/gol.go `decorateAppLogEntry`, `decoratePublicAccessLogEntry`) -/

/-- Level constant `DEBUG = 0` (src/gol.go line 40). -/
def DEBUG : Nat := 0

/-- Level constant `INFO = 1` (src/gol.go line 41). -/
def INFO : Nat := 1

/-- Level constant `WARN = 2` (src/gol.go line 42). -/
def WARN : Nat := 2

/-- Level constant `ERROR = 3` (src/gol.go line 43). -/
def ERROR : Nat := 3

/-- Level constant `FATAL = 5` (src/gol.go line 44). -/
def FATAL : Nat := 5

/-- The `levels` name map; a missing key yields `""` exactly as a Go map
lookup yields the zero value. -/
def levels (l : Nat) : String :=
  if l = 0 then "DEBUG"
  else if l = 1 then "INFO"
  else if l = 2 then "WARN"
  else if l = 3 then "ERROR"
  else if l = 5 then "FATAL"
  else ""

/-- Go's `fmt.Sprint(v)` applied to a slice value renders the elements joined
by single spaces inside square brackets. -/
def fmtSprint (v : List String) : String := "[" ++ String.intercalate " " v ++ "]"

/-- `decorateAppLogEntry` (src/gol.go lines 439-453).  The globals `aLoglevel`
and `showLineNumbers` and the ambient values (wall clock, caller location from
`runtime.Caller`) are passed explicitly. -/
def decorateAppLogEntry (aLoglevel : Nat) (showLineNumbers : Bool)
    (now callerFile : String) (callerLine : Nat) (level : Nat) (v : List String) : String :=
  if aLoglevel > level then ""
  else
    let msg := now ++ " " ++ levels level ++ " " ++ fmtSprint v
    if showLineNumbers then msg ++ " at " ++ callerFile ++ ":" ++ itoa callerLine ++ "\n"
    else msg

/-- The parts of `http.Request` read by `decoratePublicAccessLogEntry`. -/
structure HttpRequest where
  method : String
  url : String
  proto : String
  remoteAddr : String
  xForwardedFor : String
  userAgent : String
  deriving DecidableEq

/-- `decoratePublicAccessLogEntry` (src/gol.go lines 454-480).  The duration is
in nanoseconds (Go `time.Duration`); Go integer division truncates toward
zero, which is `Int.div`. -/
def decoratePublicAccessLogEntry (now : String) (r : HttpRequest)
    (status contentLength : Nat) (d : Int) : String :=
  let ns := d
  let us := Int.tdiv d 1000
  let ms := Int.tdiv d 1000000
  let fromIp := if r.xForwardedFor.trim = "" then r.remoteAddr else r.xForwardedFor
  let message := now ++ " " ++ r.method ++ " " ++ r.url ++ " " ++ r.proto
    ++ " from [" ++ fromIp ++ "] with agent [" ++ r.userAgent ++ "]"
  let message :=
    if ms > 0 then message ++ " in " ++ intStr ms ++ "ms => " ++ itoa status
    else if us > 0 then message ++ " in " ++ intStr us ++ "μs => " ++ itoa status
    else message ++ " in " ++ intStr ns ++ "ns => " ++ itoa status
  message ++ " with " ++ itoa contentLength ++ " bytes \n"

/-! ### Engine state, channels and observable events -/

/-- A Go channel as the submit path sees it: nil (before `Start` ever ran),
open, or closed (after `Stop`). -/
inductive ChanState
  | nilChan
  | opened
  | closed
  deriving DecidableEq

/-- Outcome of one call of the submit interface.  Sending on a nil channel
blocks forever; sending on a closed channel panics (Go semantics). -/
inductive SubmitOutcome
  | dropped
  | enqueued (msg : String)
  | blocked
  | panicked
  deriving DecidableEq

/-- Observable side effects of the write/purge/fatal paths: entries Go's `log`
package prints to stderr, file writes, process exit, purge deletions. -/
inductive Event
  | statErrorLogged
  | rotationFailedLogged
  | mirror (msg : String)
  | fileWrite (msg : String) (ok : Bool)
  | unableToLogLogged (msg : String)
  | exitProcess (code : Nat)
  | purgeReadDirErrorLogged (folder : String)
  | purgeRemoved (path : String)
  | purgeRemoveErrorLogged (path : String)
  deriving DecidableEq

/-- The package-level mutable state of src/gol.go restricted to the
application-log stream (the access-log stream is the same code with its own
copies of the globals).  The file handle is modelled by `appFileClosed`
(handle unusable: nil or closed), `appFileSize` and `appFileLines`;
`appArchives` is the set of archive file names present in the folder. -/
structure EngineState where
  running : Bool
  appLogChan : ChanState
  publicLogChan : ChanState
  aLoglevel : Nat
  showLineNumbers : Bool
  logToStdOut : Bool
  aRotateCounter : Nat
  aLogSuffix : Nat
  aLogMaxSize : Int
  aLogFolder : String
  aLogName : String
  appFileClosed : Bool
  appFileSize : Int
  appFileLines : List String
  appArchives : List String
  deriving DecidableEq

/-- The package defaults (src/gol.go lines 56-90): not running, nil channels,
level INFO, 1024 KB max size, stdout mirroring and line numbers on. -/
def initialState : EngineState :=
  { running := false
    appLogChan := ChanState.nilChan
    publicLogChan := ChanState.nilChan
    aLoglevel := INFO
    showLineNumbers := true
    logToStdOut := true
    aRotateCounter := 0
    aLogSuffix := 0
    aLogMaxSize := 1024
    aLogFolder := "/var/log"
    aLogName := "application.log"
    appFileClosed := true
    appFileSize := 0
    appFileLines := []
    appArchives := [] }

/-- Go semantics of `ch <- msg` as observed by the caller. -/
def chanSend : ChanState → String → SubmitOutcome
  | ChanState.nilChan, _ => SubmitOutcome.blocked
  | ChanState.opened, msg => SubmitOutcome.enqueued msg
  | ChanState.closed, _ => SubmitOutcome.panicked

/-! ### Rotation (src/gol.go `needRotation`, `rotate`) and the write path -/

/-- I/O oracle for one pass through `doAppLogWrite`: whether the stat of the
live file fails, whether stat/rename/reopen during `rotate` fail, and the
local date `rotate` stamps on archive names. -/
structure WriteEnv where
  statErr : Bool
  archiveStatErr : Bool
  renameErr : Bool
  reopenErr : Bool
  date : String
  deriving DecidableEq

/-- `needRotation` (src/gol.go lines 342-356): a stat failure is logged and
reported as no rotation needed; otherwise rotation is needed exactly when the
file size strictly exceeds `maxSize * 1024` (max size is configured in KB). -/
def needRotation (statResult : Option Int) (maxSize : Int) : Bool × List Event :=
  match statResult with
  | none => (false, [Event.statErrorLogged])
  | some size => (decide (size > maxSize * 1024), [])

/-- Archive path `<folder>/<date>-<suffix>-<fileName>` built by `rotate`. -/
def archiveName (folder date : String) (n : Nat) (fileName : String) : String :=
  folder ++ "/" ++ date ++ "-" ++ itoa n ++ "-" ++ fileName

/-- Result of `rotate`: the new `*fileNumber` value plus, on success, the
archive path the live file was renamed to.  `fuelOut` is the fuel-exhaustion
artifact of the loop model; it is proved unreachable for the fuel `rotate`
passes. -/
inductive RotateResult
  | success (newSuffix : Nat) (archive : String)
  | failure (newSuffix : Nat)
  | fuelOut (newSuffix : Nat)
  deriving DecidableEq

/-- The `for !rotated` loop of `rotate` (src/gol.go lines 406-434): while the
candidate archive name exists the suffix is incremented and the loop retries;
at the first free name the live file is renamed and a fresh handle opened, and
the suffix is incremented once more. -/
def rotateLoop (folder fileName : String) (env : WriteEnv) (existing : List String) :
    Nat → Nat → RotateResult
  | n, 0 => RotateResult.fuelOut n
  | n, fuel + 1 =>
    let archive := archiveName folder env.date n fileName
    if env.archiveStatErr then RotateResult.failure n
    else if archive ∈ existing then rotateLoop folder fileName env existing (n + 1) fuel
    else if env.renameErr then RotateResult.failure n
    else if env.reopenErr then RotateResult.failure n
    else RotateResult.success (n + 1) archive

/-- `rotate` (src/gol.go lines 398-437).  The fuel `existing.length + 1` is
sufficient: among any `existing.length + 1` consecutive candidate names at
least one is not in `existing` (proved below). -/
def rotate (folder fileName : String) (env : WriteEnv) (existing : List String)
    (fileNumber : Nat) : RotateResult :=
  rotateLoop folder fileName env existing fileNumber (existing.length + 1)

/-- `doAppLogWrite` (src/gol.go lines 282-310): increment the rotation
counter, run the rotation check when `counter <= 10` (which is every call,
since the counter is reset to 0 inside that branch), mirror to stdout when
configured, write to the live handle — ignoring the write error — and return
nil. -/
def doAppLogWrite (env : WriteEnv) (msg : String) (st : EngineState) :
    EngineState × List Event × Option String :=
  let st1 := { st with aRotateCounter := st.aRotateCounter + 1 }
  let p :=
    if st1.aRotateCounter ≤ 10 then
      let st2 := { st1 with aRotateCounter := 0 }
      let nr := needRotation (if env.statErr then none else some st2.appFileSize) st2.aLogMaxSize
      if nr.1 then
        let st3 := { st2 with appFileClosed := true }
        match rotate st3.aLogFolder st3.aLogName env st3.appArchives st3.aLogSuffix with
        | RotateResult.success n archive =>
          ({ st3 with
              aLogSuffix := n
              appArchives := archive :: st3.appArchives
              appFileClosed := false
              appFileSize := 0
              appFileLines := [] }, nr.2)
        | RotateResult.failure n =>
          ({ st3 with aLogSuffix := n }, nr.2 ++ [Event.rotationFailedLogged])
        | RotateResult.fuelOut n =>
          ({ st3 with aLogSuffix := n }, nr.2 ++ [Event.rotationFailedLogged])
      else (st2, nr.2)
    else (st1, [])
  let st4 := p.1
  let evMirror : List Event := if st4.logToStdOut then [Event.mirror msg] else []
  let q : EngineState × List Event :=
    if st4.appFileClosed then
      (st4, p.2 ++ evMirror ++ [Event.fileWrite msg false])
    else
      ({ st4 with
          appFileSize := st4.appFileSize + (msg.length : Int)
          appFileLines := st4.appFileLines ++ [msg] },
        p.2 ++ evMirror ++ [Event.fileWrite msg true])
  (q.1, q.2, none)

/-- The worker loop `appLogWrite` (src/gol.go lines 242-260): drain the
channel (modelled as the list of received messages, each with its I/O
environment), skip empty messages, and log to stderr when `doAppLogWrite`
returns a non-nil error. -/
def appLogWrite (items : List (WriteEnv × String)) (st : EngineState) :
    EngineState × List Event :=
  match items with
  | [] => (st, [])
  | it :: rest =>
    if it.2 = "" then appLogWrite rest st
    else
      let r := doAppLogWrite it.1 it.2 st
      let tail := appLogWrite rest r.1
      match r.2.2 with
      | some _ => (tail.1, r.2.1 ++ [Event.unableToLogLogged it.2] ++ tail.2)
      | none => (tail.1, r.2.1 ++ tail.2)

/-! ### Submit interface and lifecycle (src/gol.go lines 92-201) -/

/-- `Debug` (src/gol.go lines 143-152). -/
def Debug (st : EngineState) (now callerFile : String) (callerLine : Nat)
    (v : List String) : SubmitOutcome :=
  if st.running = false then SubmitOutcome.dropped
  else
    let s := decorateAppLogEntry st.aLoglevel st.showLineNumbers now callerFile callerLine DEBUG v
    if s ≠ "" then chanSend st.appLogChan s else SubmitOutcome.dropped

/-- `Info` (src/gol.go lines 154-163). -/
def Info (st : EngineState) (now callerFile : String) (callerLine : Nat)
    (v : List String) : SubmitOutcome :=
  if st.running = false then SubmitOutcome.dropped
  else
    let s := decorateAppLogEntry st.aLoglevel st.showLineNumbers now callerFile callerLine INFO v
    if s ≠ "" then chanSend st.appLogChan s else SubmitOutcome.dropped

/-- `Warn` (src/gol.go lines 165-174). -/
def Warn (st : EngineState) (now callerFile : String) (callerLine : Nat)
    (v : List String) : SubmitOutcome :=
  if st.running = false then SubmitOutcome.dropped
  else
    let s := decorateAppLogEntry st.aLoglevel st.showLineNumbers now callerFile callerLine WARN v
    if s ≠ "" then chanSend st.appLogChan s else SubmitOutcome.dropped

/-- `Error` (src/gol.go lines 176-185). -/
def Error (st : EngineState) (now callerFile : String) (callerLine : Nat)
    (v : List String) : SubmitOutcome :=
  if st.running = false then SubmitOutcome.dropped
  else
    let s := decorateAppLogEntry st.aLoglevel st.showLineNumbers now callerFile callerLine ERROR v
    if s ≠ "" then chanSend st.appLogChan s else SubmitOutcome.dropped

/-- `Fatal` (src/gol.go lines 188-197): when running and the formatted message
is non-empty, write it synchronously through `doAppLogWrite` on the calling
thread and exit with status 1. -/
def Fatal (env : WriteEnv) (st : EngineState) (now callerFile : String) (callerLine : Nat)
    (v : List String) : EngineState × List Event :=
  if st.running = false then (st, [])
  else
    let message := decorateAppLogEntry st.aLoglevel st.showLineNumbers now callerFile callerLine FATAL v
    if message ≠ "" then
      let r := doAppLogWrite env message st
      (r.1, r.2.1 ++ [Event.exitProcess 1])
    else (st, [])

/-- `Public` (src/gol.go lines 199-201): formats and sends on the access-log
channel, with no check of the running flag. -/
def Public (st : EngineState) (now : String) (r : HttpRequest)
    (status contentLength : Nat) (d : Int) : SubmitOutcome :=
  chanSend st.publicLogChan (decoratePublicAccessLogEntry now r status contentLength d)

/-- `Start` (src/gol.go lines 92-128).  The two booleans are the open-file
outcomes for the application and access log files; the returned flag is
whether an error is returned. -/
def Start (st : EngineState) (aOpenErr pOpenErr : Bool) : EngineState × Bool :=
  if st.running then (st, false)
  else
    let st1 := { st with
                  appLogChan := ChanState.opened
                  publicLogChan := ChanState.opened
                  aLogSuffix := 0 }
    if aOpenErr then (st1, true)
    else
      let st2 := { st1 with appFileClosed := false }
      if pOpenErr then (st2, true)
      else ({ st2 with running := true }, false)

/-- Result of `Stop`: the updated state, or a panic (Go panics on closing an
already-closed or nil channel). -/
inductive StopResult
  | ok (st : EngineState)
  | panicked (st : EngineState)
  deriving DecidableEq

/-- Go `close(ch)`: defined only on an open channel. -/
def closeChan : ChanState → Option ChanState
  | ChanState.opened => some ChanState.closed
  | _ => none

/-- `Stop` (src/gol.go lines 130-141): under the start/stop lock, clear the
running flag, close both channels and wait for the workers. -/
def Stop (st : EngineState) : StopResult :=
  let st1 := { st with running := false }
  match closeChan st1.appLogChan with
  | none => StopResult.panicked st1
  | some a =>
    match closeChan st1.publicLogChan with
    | none => StopResult.panicked { st1 with appLogChan := a }
    | some p => StopResult.ok { st1 with appLogChan := a, publicLogChan := p }

/-! ### Purge (src/gol.go `purgeFiles`) -/

/-- A directory entry as `ioutil.ReadDir` reports it: name and last-modified
time (an instant in nanoseconds, like Go's `time.Time`). -/
structure DirEntry where
  name : String
  modTime : Int
  deriving DecidableEq

/-- Nanoseconds per day, the unit `AddDate(0, 0, -maxAge)` shifts by. -/
def nsPerDay : Int := 86400000000000

/-- Go's `strings.HasSuffix`. -/
def hasSuffix (s suffix : String) : Bool := List.isSuffixOf suffix.data s.data

/-- One iteration of the `for running` body of `purgeFiles` (src/gol.go lines
358-382): compute the cutoff `now - maxAge` days, list the folder (`none`
models a ReadDir error, which is logged and leaves the file list empty),
and for every entry whose name ends in the stream's base name and whose
modification time is before the cutoff, attempt removal; a failed removal is
logged and the iteration continues with the remaining entries. -/
def purgeScan (folder suffix : String) (maxAge : Int) (now : Int)
    (entries : Option (List DirEntry)) (removeErr : String → Bool) : List Event :=
  let cutoff := now - maxAge * nsPerDay
  match entries with
  | none => [Event.purgeReadDirErrorLogged folder]
  | some files =>
    files.flatMap fun f =>
      if hasSuffix f.name suffix then
        if f.modTime < cutoff then
          let path := folder ++ "/" ++ f.name
          if removeErr path then [Event.purgeRemoveErrorLogged path]
          else [Event.purgeRemoved path]
        else []
      else []

/-- The environment of one purge iteration: the wall clock, the directory
listing (or a ReadDir failure) and the removal outcomes. -/
structure ScanEnv where
  now : Int
  entries : Option (List DirEntry)
  removeErr : String → Bool

/-- `purgeFiles` (src/gol.go lines 358-382): the scan loop, one `ScanEnv` per
iteration observed while `running` held. -/
def purgeFiles (folder suffix : String) (maxAge : Int) (rounds : List ScanEnv) : List Event :=
  rounds.flatMap fun e => purgeScan folder suffix maxAge e.now e.entries e.removeErr

/-! ### Helper lemmas -/

theorem charToDigit_digitChar : ∀ d : Nat, d < 10 → charToDigit (Nat.digitChar d) = d := by
  decide

theorem ofChars_append_singleton (l : List Char) (c : Char) :
    ofChars (l ++ [c]) = ofChars l * 10 + charToDigit c := by
  simp [ofChars, List.foldl_append]

theorem ofChars_itoaAux : ∀ fuel n : Nat, n ≤ fuel → ofChars (itoaAux fuel n) = n := by
  intro fuel
  induction fuel with
  | zero =>
    intro n hn
    interval_cases n
    simp [itoaAux, ofChars]
  | succ f ih =>
    intro n hn
    by_cases h0 : n = 0
    · subst h0; simp [itoaAux, ofChars]
    · have hdiv : n / 10 ≤ f := by
        have : n / 10 < n := Nat.div_lt_self (Nat.pos_of_ne_zero h0) (by norm_num)
        omega
      simp only [itoaAux, if_neg h0]
      rw [ofChars_append_singleton, ih _ hdiv,
        charToDigit_digitChar _ (Nat.mod_lt _ (by norm_num))]
      omega

theorem itoa_injective : Function.Injective itoa := by
  intro a b hab
  by_cases ha : a = 0 <;> by_cases hb : b = 0
  · omega
  · exfalso
    have h := hab
    rw [itoa, if_pos ha, itoa, if_neg hb] at h
    have hb' : (0 : Nat) = b := by
      calc (0 : Nat) = ofChars ("0" : String).data := by rfl
      _ = ofChars (String.mk (itoaAux b b)).data := by rw [h]
      _ = ofChars (itoaAux b b) := rfl
      _ = b := ofChars_itoaAux b b le_rfl
    exact hb hb'.symm
  · exfalso
    have h := hab
    rw [itoa, if_neg ha, itoa, if_pos hb] at h
    have ha' : (0 : Nat) = a := by
      calc (0 : Nat) = ofChars ("0" : String).data := by rfl
      _ = ofChars (String.mk (itoaAux a a)).data := by rw [h]
      _ = ofChars (itoaAux a a) := rfl
      _ = a := ofChars_itoaAux a a le_rfl
    exact ha ha'.symm
  · have hd : itoaAux a a = itoaAux b b := by
      have := congrArg String.data hab
      simpa [itoa, ha, hb] using this
    calc a = ofChars (itoaAux a a) := (ofChars_itoaAux a a le_rfl).symm
    _ = ofChars (itoaAux b b) := by rw [hd]
    _ = b := ofChars_itoaAux b b le_rfl

/-- A non-suppressed entry is never the empty string: it contains at least the
two separator spaces and the brackets of the argument rendering. -/
theorem decorateAppLogEntry_ne_empty (aLoglevel : Nat) (b : Bool)
    (now callerFile : String) (callerLine level : Nat) (v : List String)
    (hT : aLoglevel ≤ level) :
    decorateAppLogEntry aLoglevel b now callerFile callerLine level v ≠ "" := by
  have hsp : (" " : String).length = 1 := rfl
  have hlb : ("[" : String).length = 1 := rfl
  have hz : ("" : String).length = 0 := rfl
  intro h
  have hl := congrArg String.length h
  unfold decorateAppLogEntry at hl
  rw [if_neg (by omega)] at hl
  cases b <;>
    simp [fmtSprint, String.length_append, hsp, hlb, hz] at hl

/-- A suppressed entry (threshold above the level) is the empty string. -/
theorem decorateAppLogEntry_empty (aLoglevel : Nat) (b : Bool)
    (now callerFile : String) (callerLine level : Nat) (v : List String)
    (hT : level < aLoglevel) :
    decorateAppLogEntry aLoglevel b now callerFile callerLine level v = "" := by
  unfold decorateAppLogEntry
  rw [if_pos (by omega)]

/-! ### Claim theorems: formatter and level filtering -/

/-- Claim C1: with the engine running and the application channel open, a
message at each of the four filterable levels is rendered and enqueued iff the
configured threshold is at most the message level; when the threshold is
above the level the formatter returns the empty string and nothing is
submitted.  The level constants are strictly ordered
DEBUG < INFO < WARN < ERROR < FATAL. -/
theorem c1_level_filter (st : EngineState) (now callerFile : String)
    (callerLine : Nat) (v : List String)
    (hrun : st.running = true) (hchan : st.appLogChan = ChanState.opened) :
    (DEBUG < INFO ∧ INFO < WARN ∧ WARN < ERROR ∧ ERROR < FATAL)
    ∧ (st.aLoglevel ≤ DEBUG →
        Debug st now callerFile callerLine v = SubmitOutcome.enqueued
          (decorateAppLogEntry st.aLoglevel st.showLineNumbers now callerFile callerLine DEBUG v))
    ∧ (DEBUG < st.aLoglevel →
        Debug st now callerFile callerLine v = SubmitOutcome.dropped
        ∧ decorateAppLogEntry st.aLoglevel st.showLineNumbers now callerFile callerLine DEBUG v = "")
    ∧ (st.aLoglevel ≤ INFO →
        Info st now callerFile callerLine v = SubmitOutcome.enqueued
          (decorateAppLogEntry st.aLoglevel st.showLineNumbers now callerFile callerLine INFO v))
    ∧ (INFO < st.aLoglevel →
        Info st now callerFile callerLine v = SubmitOutcome.dropped
        ∧ decorateAppLogEntry st.aLoglevel st.showLineNumbers now callerFile callerLine INFO v = "")
    ∧ (st.aLoglevel ≤ WARN →
        Warn st now callerFile callerLine v = SubmitOutcome.enqueued
          (decorateAppLogEntry st.aLoglevel st.showLineNumbers now callerFile callerLine WARN v))
    ∧ (WARN < st.aLoglevel →
        Warn st now callerFile callerLine v = SubmitOutcome.dropped
        ∧ decorateAppLogEntry st.aLoglevel st.showLineNumbers now callerFile callerLine WARN v = "")
    ∧ (st.aLoglevel ≤ ERROR →
        Error st now callerFile callerLine v = SubmitOutcome.enqueued
          (decorateAppLogEntry st.aLoglevel st.showLineNumbers now callerFile callerLine ERROR v))
    ∧ (ERROR < st.aLoglevel →
        Error st now callerFile callerLine v = SubmitOutcome.dropped
        ∧ decorateAppLogEntry st.aLoglevel st.showLineNumbers now callerFile callerLine ERROR v = "") := by
  have hnr : ¬ (st.running = false) := by rw [hrun]; simp
  refine ⟨by decide, ?_, ?_, ?_, ?_, ?_, ?_, ?_, ?_⟩ <;> intro hT
  · have hne := decorateAppLogEntry_ne_empty st.aLoglevel st.showLineNumbers
      now callerFile callerLine DEBUG v hT
    unfold Debug
    rw [if_neg hnr, if_pos hne, hchan]
    rfl
  · exact ⟨by unfold Debug; rw [if_neg hnr,
        if_neg (by simpa using decorateAppLogEntry_empty _ _ _ _ _ _ v hT)],
      decorateAppLogEntry_empty _ _ _ _ _ _ v hT⟩
  · have hne := decorateAppLogEntry_ne_empty st.aLoglevel st.showLineNumbers
      now callerFile callerLine INFO v hT
    unfold Info
    rw [if_neg hnr, if_pos hne, hchan]
    rfl
  · exact ⟨by unfold Info; rw [if_neg hnr,
        if_neg (by simpa using decorateAppLogEntry_empty _ _ _ _ _ _ v hT)],
      decorateAppLogEntry_empty _ _ _ _ _ _ v hT⟩
  · have hne := decorateAppLogEntry_ne_empty st.aLoglevel st.showLineNumbers
      now callerFile callerLine WARN v hT
    unfold Warn
    rw [if_neg hnr, if_pos hne, hchan]
    rfl
  · exact ⟨by unfold Warn; rw [if_neg hnr,
        if_neg (by simpa using decorateAppLogEntry_empty _ _ _ _ _ _ v hT)],
      decorateAppLogEntry_empty _ _ _ _ _ _ v hT⟩
  · have hne := decorateAppLogEntry_ne_empty st.aLoglevel st.showLineNumbers
      now callerFile callerLine ERROR v hT
    unfold Error
    rw [if_neg hnr, if_pos hne, hchan]
    rfl
  · exact ⟨by unfold Error; rw [if_neg hnr,
        if_neg (by simpa using decorateAppLogEntry_empty _ _ _ _ _ _ v hT)],
      decorateAppLogEntry_empty _ _ _ _ _ _ v hT⟩

/-- Witness for C1 at a concrete running state and concrete messages. -/
theorem c1_level_filter_witness :
    ∃ st : EngineState, st.running = true ∧ st.appLogChan = ChanState.opened
      ∧ st.aLoglevel ≤ INFO
      ∧ Info st "2024-01-02 03:04:05" "main.go" 7 ["m"] = SubmitOutcome.enqueued
          (decorateAppLogEntry st.aLoglevel st.showLineNumbers
            "2024-01-02 03:04:05" "main.go" 7 INFO ["m"])
      ∧ Debug st "2024-01-02 03:04:05" "main.go" 7 ["m"] = SubmitOutcome.dropped := by
  refine ⟨{ initialState with running := true, appLogChan := ChanState.opened }, rfl, rfl,
    by decide, ?_, ?_⟩
  · exact (c1_level_filter _ "2024-01-02 03:04:05" "main.go" 7 ["m"] rfl rfl).2.2.2.1
      (by decide)
  · exact ((c1_level_filter _ "2024-01-02 03:04:05" "main.go" 7 ["m"] rfl rfl).2.2.1
      (by decide)).1

/-- Claim C8 counterexample: with caller-location annotation disabled, the
rendered entry is not terminated by a newline character — its last character
is the closing bracket of the argument rendering. -/
theorem c8_counterexample :
    decorateAppLogEntry 1 false "2024-01-02 03:04:05" "main.go" 7 INFO ["boom"]
      = "2024-01-02 03:04:05 INFO [boom]"
    ∧ ("2024-01-02 03:04:05 INFO [boom]" : String).data.getLast? = some ']'
    ∧ (']' : Char) ≠ '\n' := by
  refine ⟨by decide, rfl, by decide⟩

/-- Claim C8 (amended): a non-suppressed application-log message renders as
timestamp, level name and message; when caller-location annotation is enabled
the formatter appends the location and a terminating newline, and when it is
disabled no newline is appended. -/
theorem c8_format (aLoglevel : Nat) (now callerFile : String) (callerLine level : Nat)
    (v : List String) :
    (aLoglevel ≤ level →
      decorateAppLogEntry aLoglevel true now callerFile callerLine level v
        = now ++ " " ++ levels level ++ " " ++ fmtSprint v ++ " at " ++ callerFile ++ ":"
            ++ itoa callerLine ++ "\n"
      ∧ decorateAppLogEntry aLoglevel false now callerFile callerLine level v
        = now ++ " " ++ levels level ++ " " ++ fmtSprint v)
    ∧ (level < aLoglevel → ∀ b : Bool,
        decorateAppLogEntry aLoglevel b now callerFile callerLine level v = "") := by
  constructor
  · intro hT
    constructor <;> (unfold decorateAppLogEntry; rw [if_neg (by omega)]; rfl)
  · intro hT b
    exact decorateAppLogEntry_empty _ _ _ _ _ _ _ hT

/-- Witness for C8 at concrete inputs, both annotation settings. -/
theorem c8_format_witness :
    decorateAppLogEntry 1 true "2024-01-02 03:04:05" "main.go" 7 INFO ["m"]
      = "2024-01-02 03:04:05" ++ " " ++ levels INFO ++ " " ++ fmtSprint ["m"] ++ " at "
        ++ "main.go" ++ ":" ++ itoa 7 ++ "\n"
    ∧ decorateAppLogEntry 1 false "2024-01-02 03:04:05" "main.go" 7 INFO ["m"]
      = "2024-01-02 03:04:05" ++ " " ++ levels INFO ++ " " ++ fmtSprint ["m"] :=
  (c8_format 1 "2024-01-02 03:04:05" "main.go" 7 INFO ["m"]).1 (by decide)

/-! ### Claim theorems: lifecycle and submit interface -/

/-- Claim C10: a Fatal call on a non-running engine returns immediately: the
state (hence every file) is unchanged and no event — no write, no process
exit — is produced. -/
theorem c10_fatal_noop_when_not_running (env : WriteEnv) (st : EngineState)
    (now callerFile : String) (callerLine : Nat) (v : List String)
    (hrun : st.running = false) :
    Fatal env st now callerFile callerLine v = (st, []) := by
  unfold Fatal
  rw [if_pos hrun]

/-- Witness for C10 on the package-default (never started) state. -/
theorem c10_fatal_noop_witness :
    initialState.running = false
    ∧ Fatal ⟨false, false, false, false, "2024-01-02"⟩ initialState
        "2024-01-02 03:04:05" "main.go" 7 ["boom"] = (initialState, []) :=
  ⟨rfl, c10_fatal_noop_when_not_running _ _ _ _ _ _ rfl⟩

/-- Claim C2 counterexample: Public is not a no-op on a non-running engine.
Before any Start it sends on the nil access channel and blocks forever; on
the engine obtained by Start then Stop it sends on the closed channel and
panics. -/
theorem c2_public_counterexample :
    Public initialState "t" ⟨"GET", "/u", "HTTP/1.1", "10.0.0.1:1", "", "ua"⟩ 200 10 1000000
      = SubmitOutcome.blocked
    ∧ ∃ st1 st2, Start initialState false false = (st1, false)
        ∧ Stop st1 = StopResult.ok st2
        ∧ st2.running = false
        ∧ Public st2 "t" ⟨"GET", "/u", "HTTP/1.1", "10.0.0.1:1", "", "ua"⟩ 200 10 1000000
            = SubmitOutcome.panicked :=
  ⟨rfl, _, _, rfl, rfl, rfl, rfl⟩

/-- Claim C2 (amended): on a non-running engine Debug, Info, Warn and Error
are silent no-ops (the message is dropped, no block, no panic), but Public
performs no running check: it blocks forever when the access channel is nil
(engine never started) and panics when the channel is closed (after Stop). -/
theorem c2_submit_on_stopped_engine (st : EngineState) (now callerFile : String)
    (callerLine : Nat) (v : List String) (r : HttpRequest)
    (status contentLength : Nat) (d : Int)
    (hrun : st.running = false) :
    Debug st now callerFile callerLine v = SubmitOutcome.dropped
    ∧ Info st now callerFile callerLine v = SubmitOutcome.dropped
    ∧ Warn st now callerFile callerLine v = SubmitOutcome.dropped
    ∧ Error st now callerFile callerLine v = SubmitOutcome.dropped
    ∧ (st.publicLogChan = ChanState.nilChan →
        Public st now r status contentLength d = SubmitOutcome.blocked)
    ∧ (st.publicLogChan = ChanState.closed →
        Public st now r status contentLength d = SubmitOutcome.panicked) := by
  refine ⟨?_, ?_, ?_, ?_, ?_, ?_⟩
  · unfold Debug; rw [if_pos hrun]
  · unfold Info; rw [if_pos hrun]
  · unfold Warn; rw [if_pos hrun]
  · unfold Error; rw [if_pos hrun]
  · intro hc; unfold Public; rw [hc]; rfl
  · intro hc; unfold Public; rw [hc]; rfl

/-- Witness for the amended C2 on the package-default state. -/
theorem c2_submit_on_stopped_engine_witness :
    initialState.running = false
    ∧ Debug initialState "t" "main.go" 7 ["m"] = SubmitOutcome.dropped
    ∧ Public initialState "t" ⟨"GET", "/u", "HTTP/1.1", "10.0.0.1:1", "", "ua"⟩ 200 10 1000000
        = SubmitOutcome.blocked :=
  ⟨rfl,
    (c2_submit_on_stopped_engine initialState "t" "main.go" 7 ["m"]
      ⟨"GET", "/u", "HTTP/1.1", "10.0.0.1:1", "", "ua"⟩ 200 10 1000000 rfl).1,
    (c2_submit_on_stopped_engine initialState "t" "main.go" 7 ["m"]
      ⟨"GET", "/u", "HTTP/1.1", "10.0.0.1:1", "", "ua"⟩ 200 10 1000000 rfl).2.2.2.2.1 rfl⟩

/-- Claim C4 counterexample: after Start and a completed Stop, a second Stop
panics (it closes the already-closed channels), so Stop is not idempotent. -/
theorem c4_counterexample :
    ∃ st1 st2 st3, Start initialState false false = (st1, false)
      ∧ Stop st1 = StopResult.ok st2
      ∧ Stop st2 = StopResult.panicked st3 :=
  ⟨_, _, _, rfl, rfl, rfl⟩

/-- Claim C4 (amended): on a running engine with both channels open, Stop
completes, clears the running flag and closes both channels; the start/stop
lock serializes concurrent Stops, but a second Stop after completion
double-closes the channels and panics — Stop is not idempotent. -/
theorem c4_stop_closes_and_second_stop_panics (st : EngineState)
    (ha : st.appLogChan = ChanState.opened) (hp : st.publicLogChan = ChanState.opened) :
    ∃ st2, Stop st = StopResult.ok st2
      ∧ st2.running = false
      ∧ st2.appLogChan = ChanState.closed
      ∧ st2.publicLogChan = ChanState.closed
      ∧ ∃ st3, Stop st2 = StopResult.panicked st3 := by
  refine ⟨{ st with running := false, appLogChan := ChanState.closed, publicLogChan := ChanState.closed },
    ?_, rfl, rfl, rfl, ?_⟩
  · simp [Stop, closeChan, ha, hp]
  · exact ⟨_, rfl⟩

/-- Witness for the amended C4 on the state produced by Start. -/
theorem c4_stop_witness :
    ∃ st2, Stop (Start initialState false false).1 = StopResult.ok st2
      ∧ st2.running = false
      ∧ ∃ st3, Stop st2 = StopResult.panicked st3 := by
  obtain ⟨st2, h1, h2, _, _, h5⟩ :=
    c4_stop_closes_and_second_stop_panics (Start initialState false false).1 rfl rfl
  exact ⟨st2, h1, h2, h5⟩

/-! ### Rotation: archive names are injective in the suffix, and the search
loop always reaches a fresh name -/

theorem string_append_cancel_left (a b c : String) (h : a ++ b = a ++ c) : b = c := by
  apply String.ext
  have hd := congrArg String.data h
  rw [String.data_append, String.data_append] at hd
  exact List.append_cancel_left hd

theorem string_append_cancel_right (a b c : String) (h : a ++ c = b ++ c) : a = b := by
  apply String.ext
  have hd := congrArg String.data h
  rw [String.data_append, String.data_append] at hd
  exact List.append_cancel_right hd

theorem archiveName_injective (folder date fileName : String) :
    Function.Injective fun n => archiveName folder date n fileName := by
  intro a b h
  simp only [archiveName] at h
  have h1 := string_append_cancel_right _ _ _ h
  have h2 := string_append_cancel_right _ _ _ h1
  have h3 := string_append_cancel_left _ _ _ h2
  exact itoa_injective h3

/-- Among `existing.length + 1` consecutive candidate archive names at least
one is absent from `existing`. -/
theorem exists_fresh_archiveName (folder date fileName : String)
    (existing : List String) (n : Nat) :
    ∃ k, n ≤ k ∧ k < n + existing.length + 1
      ∧ archiveName folder date k fileName ∉ existing := by
  by_contra hc
  push_neg at hc
  have hinj : Function.Injective fun i : Nat => archiveName folder date (n + i) fileName := by
    intro x y hxy
    have := archiveName_injective folder date fileName hxy
    omega
  have hsub : (Finset.range (existing.length + 1)).image
      (fun i => archiveName folder date (n + i) fileName) ⊆ existing.toFinset := by
    intro s hs
    simp only [Finset.mem_image, Finset.mem_range] at hs
    obtain ⟨i, hi, rfl⟩ := hs
    exact List.mem_toFinset.2 (hc (n + i) (by omega) (by omega))
  have hcard := Finset.card_le_card hsub
  rw [Finset.card_image_of_injective _ hinj, Finset.card_range] at hcard
  have := existing.toFinset_card_le
  omega

/-- The rotation loop, run with enough fuel to reach a fresh candidate name,
stops at the least free suffix at or above its starting point; all smaller
candidates exist, and on success the suffix is advanced past the one used. -/
theorem rotateLoop_reaches (folder fileName : String) (env : WriteEnv)
    (existing : List String) (hstat : env.archiveStatErr = false) :
    ∀ fuel n,
      (∃ k, n ≤ k ∧ k < n + fuel ∧ archiveName folder env.date k fileName ∉ existing) →
      ∃ k, n ≤ k ∧ archiveName folder env.date k fileName ∉ existing
        ∧ (∀ j, n ≤ j → j < k → archiveName folder env.date j fileName ∈ existing)
        ∧ rotateLoop folder fileName env existing n fuel
          = (if env.renameErr then RotateResult.failure k
             else if env.reopenErr then RotateResult.failure k
             else RotateResult.success (k + 1) (archiveName folder env.date k fileName)) := by
  intro fuel
  induction fuel with
  | zero =>
    rintro n ⟨k, h1, h2, _⟩
    omega
  | succ f ih =>
    intro n hex
    by_cases hmem : archiveName folder env.date n fileName ∈ existing
    · obtain ⟨k, h1, h2, h3⟩ := hex
      have hkn : k ≠ n := by
        intro he
        exact h3 (he ▸ hmem)
      obtain ⟨k2, g1, g2, g3, g4⟩ := ih (n + 1) ⟨k, by omega, by omega, h3⟩
      refine ⟨k2, by omega, g2, ?_, ?_⟩
      · intro j hj1 hj2
        rcases Nat.eq_or_lt_of_le hj1 with he | hlt
        · exact he ▸ hmem
        · exact g3 j hlt hj2
      · rw [rotateLoop, if_neg (by rw [hstat]; simp), if_pos hmem]
        exact g4
    · refine ⟨n, le_rfl, hmem, ?_, ?_⟩
      · intro j hj1 hj2
        omega
      · rw [rotateLoop, if_neg (by rw [hstat]; simp), if_neg hmem]

/-- `rotate` (fuel `existing.length + 1`) always reaches the least free
suffix; with rename and reopen succeeding it archives under that name. -/
theorem rotate_spec (folder fileName : String) (env : WriteEnv)
    (existing : List String) (fileNumber : Nat) (hstat : env.archiveStatErr = false) :
    ∃ k, fileNumber ≤ k ∧ archiveName folder env.date k fileName ∉ existing
      ∧ (∀ j, fileNumber ≤ j → j < k → archiveName folder env.date j fileName ∈ existing)
      ∧ rotate folder fileName env existing fileNumber
        = (if env.renameErr then RotateResult.failure k
           else if env.reopenErr then RotateResult.failure k
           else RotateResult.success (k + 1) (archiveName folder env.date k fileName)) := by
  obtain ⟨k, h1, h2, h3⟩ := exists_fresh_archiveName folder env.date fileName existing fileNumber
  exact rotateLoop_reaches folder fileName env existing hstat (existing.length + 1)
    fileNumber ⟨k, h1, by omega, h3⟩

/-- Claim C6: Start resets the suffix to 0; every successful rotation
archives under `<folder>/<date>-<suffix>-<baseName>` where the suffix is the
least value at or above the current counter whose name does not already
exist (the loop increments past every existing name), and a second rotation
the same day starts past the first suffix, so it never reuses a suffix and
never overwrites an existing archive. -/
theorem c6_rotation_naming (folder fileName date : String) (existing : List String)
    (n : Nat) (env : WriteEnv) (hdate : env.date = date)
    (h1 : env.archiveStatErr = false) (h2 : env.renameErr = false) (h3 : env.reopenErr = false)
    (st : EngineState) (hrun : st.running = false) (aErr pErr : Bool) :
    ((Start st aErr pErr).1.aLogSuffix = 0)
    ∧ ∃ k, n ≤ k
        ∧ rotate folder fileName env existing n
            = RotateResult.success (k + 1) (archiveName folder date k fileName)
        ∧ archiveName folder date k fileName ∉ existing
        ∧ (∀ j, n ≤ j → j < k → archiveName folder date j fileName ∈ existing)
        ∧ ∃ k2, k + 1 ≤ k2
            ∧ rotate folder fileName env (archiveName folder date k fileName :: existing) (k + 1)
                = RotateResult.success (k2 + 1) (archiveName folder date k2 fileName)
            ∧ archiveName folder date k2 fileName ∉ archiveName folder date k fileName :: existing
            ∧ archiveName folder date k2 fileName ≠ archiveName folder date k fileName := by
  subst hdate
  constructor
  · unfold Start
    rw [if_neg (by rw [hrun]; simp)]
    cases aErr <;> cases pErr <;> rfl
  · obtain ⟨k, g1, g2, g3, g4⟩ := rotate_spec folder fileName env existing n h1
    rw [h2, h3] at g4
    simp only [if_false, Bool.false_eq_true] at g4
    obtain ⟨k2, f1, f2, f3, f4⟩ :=
      rotate_spec folder fileName env (archiveName folder env.date k fileName :: existing) (k + 1) h1
    rw [h2, h3] at f4
    simp only [if_false, Bool.false_eq_true] at f4
    refine ⟨k, g1, g4, g2, g3, k2, f1, f4, f2, ?_⟩
    intro he
    have := archiveName_injective folder env.date fileName he
    omega

/-- Witness for C6: a folder already holding the suffix-0 archive for the
day; the first rotation picks suffix 1, the second picks suffix 2. -/
theorem c6_rotation_naming_witness :
    ((Start initialState false false).1.aLogSuffix = 0)
    ∧ ∃ k, 0 ≤ k
        ∧ rotate "logs" "application.log" ⟨false, false, false, false, "2024-01-02"⟩
              [archiveName "logs" "2024-01-02" 0 "application.log"] 0
            = RotateResult.success (k + 1) (archiveName "logs" "2024-01-02" k "application.log")
        ∧ archiveName "logs" "2024-01-02" k "application.log"
            ∉ [archiveName "logs" "2024-01-02" 0 "application.log"]
        ∧ (∀ j, 0 ≤ j → j < k →
            archiveName "logs" "2024-01-02" j "application.log"
              ∈ [archiveName "logs" "2024-01-02" 0 "application.log"])
        ∧ ∃ k2, k + 1 ≤ k2
            ∧ rotate "logs" "application.log" ⟨false, false, false, false, "2024-01-02"⟩
                  (archiveName "logs" "2024-01-02" k "application.log"
                    :: [archiveName "logs" "2024-01-02" 0 "application.log"]) (k + 1)
                = RotateResult.success (k2 + 1) (archiveName "logs" "2024-01-02" k2 "application.log")
            ∧ archiveName "logs" "2024-01-02" k2 "application.log"
                ∉ archiveName "logs" "2024-01-02" k "application.log"
                  :: [archiveName "logs" "2024-01-02" 0 "application.log"]
            ∧ archiveName "logs" "2024-01-02" k2 "application.log"
                ≠ archiveName "logs" "2024-01-02" k "application.log" :=
  c6_rotation_naming "logs" "application.log" "2024-01-02"
    [archiveName "logs" "2024-01-02" 0 "application.log"] 0
    ⟨false, false, false, false, "2024-01-02"⟩ rfl rfl rfl rfl initialState rfl false false

/-! ### The write path -/

/-- `doAppLogWrite` always returns nil, whatever the I/O environment did. -/
theorem doAppLogWrite_err_none (env : WriteEnv) (msg : String) (st : EngineState) :
    (doAppLogWrite env msg st).2.2 = none := rfl

/-- With a usable handle and no stat/rename/reopen failures, `doAppLogWrite`
writes the message to the live file (possibly after rotating first). -/
theorem doAppLogWrite_good_write (env : WriteEnv) (msg : String) (st : EngineState)
    (hopen : st.appFileClosed = false) (hse : env.statErr = false)
    (hsa : env.archiveStatErr = false) (hre : env.renameErr = false)
    (hro : env.reopenErr = false) :
    (doAppLogWrite env msg st).2.2 = none
    ∧ Event.fileWrite msg true ∈ (doAppLogWrite env msg st).2.1
    ∧ msg ∈ (doAppLogWrite env msg st).1.appFileLines
    ∧ (doAppLogWrite env msg st).1.appFileClosed = false := by
  obtain ⟨k, g1, g2, g3, g4⟩ :=
    rotate_spec st.aLogFolder st.aLogName env st.appArchives st.aLogSuffix hsa
  rw [hre, hro] at g4
  simp only [Bool.false_eq_true, if_false] at g4
  by_cases hc : st.aRotateCounter + 1 ≤ 10 <;>
    by_cases hgt : st.appFileSize > st.aLogMaxSize * 1024 <;>
      simp [doAppLogWrite, needRotation, hse, hopen, hc, hgt, g4]

/-- Claim C3: on a running engine Fatal renders the message, writes it
synchronously through the stream write path (directly calling the write
function — no channel, no worker), the write lands in the live application
log, and the process then exits with status 1; the write event precedes the
exit event in the trace. -/
theorem c3_fatal_sync_write_and_exit (env : WriteEnv) (st : EngineState)
    (now callerFile : String) (callerLine : Nat) (v : List String)
    (hrun : st.running = true) (hlev : st.aLoglevel ≤ ERROR)
    (hopen : st.appFileClosed = false) (hse : env.statErr = false)
    (hsa : env.archiveStatErr = false) (hre : env.renameErr = false)
    (hro : env.reopenErr = false) :
    ∃ st2 evs,
      Fatal env st now callerFile callerLine v = (st2, evs ++ [Event.exitProcess 1])
      ∧ Event.fileWrite
          (decorateAppLogEntry st.aLoglevel st.showLineNumbers now callerFile callerLine FATAL v)
          true ∈ evs
      ∧ decorateAppLogEntry st.aLoglevel st.showLineNumbers now callerFile callerLine FATAL v
          ∈ st2.appFileLines
      ∧ decorateAppLogEntry st.aLoglevel st.showLineNumbers now callerFile callerLine FATAL v
          ≠ "" := by
  have hlev5 : st.aLoglevel ≤ FATAL := by
    have h3 : st.aLoglevel ≤ 3 := hlev
    show st.aLoglevel ≤ 5
    omega
  have hne := decorateAppLogEntry_ne_empty st.aLoglevel st.showLineNumbers
    now callerFile callerLine FATAL v hlev5
  obtain ⟨e1, e2, e3, e4⟩ := doAppLogWrite_good_write env
    (decorateAppLogEntry st.aLoglevel st.showLineNumbers now callerFile callerLine FATAL v)
    st hopen hse hsa hre hro
  refine ⟨(doAppLogWrite env
      (decorateAppLogEntry st.aLoglevel st.showLineNumbers now callerFile callerLine FATAL v)
      st).1,
    (doAppLogWrite env
      (decorateAppLogEntry st.aLoglevel st.showLineNumbers now callerFile callerLine FATAL v)
      st).2.1, ?_, e2, e3, hne⟩
  simp [Fatal, hrun, hne]

/-- Witness for C3 on a concrete running state. -/
theorem c3_fatal_witness :
    ∃ st2 evs,
      Fatal ⟨false, false, false, false, "2024-01-02"⟩
          { initialState with running := true, appFileClosed := false }
          "2024-01-02 03:04:05" "main.go" 7 ["boom"]
        = (st2, evs ++ [Event.exitProcess 1])
      ∧ Event.fileWrite
          (decorateAppLogEntry 1 true "2024-01-02 03:04:05" "main.go" 7 FATAL ["boom"])
          true ∈ evs
      ∧ decorateAppLogEntry 1 true "2024-01-02 03:04:05" "main.go" 7 FATAL ["boom"]
          ∈ st2.appFileLines
      ∧ decorateAppLogEntry 1 true "2024-01-02 03:04:05" "main.go" 7 FATAL ["boom"] ≠ "" :=
  c3_fatal_sync_write_and_exit ⟨false, false, false, false, "2024-01-02"⟩
    { initialState with running := true, appFileClosed := false }
    "2024-01-02 03:04:05" "main.go" 7 ["boom"] rfl (by decide) rfl rfl rfl rfl rfl

/-- Claim C5: starting from the rotation counter's reachable value 0 (its
initial value, and every write re-establishes it, so the check runs before
every write), `doAppLogWrite` rotates iff the live file size strictly exceeds
`maxSize * 1024` (size configured in KB); a stat failure is logged and
suppresses rotation, a rename failure is logged and leaves the stale (closed)
handle in place; in every case the write is still attempted and the function
returns nil. -/
theorem c5_rotation_check_before_every_write (st : EngineState) (env : WriteEnv)
    (msg : String) (hcnt : st.aRotateCounter = 0) :
    initialState.aRotateCounter = 0
    ∧ (doAppLogWrite env msg st).1.aRotateCounter = 0
    ∧ (env.statErr = false → st.appFileSize ≤ st.aLogMaxSize * 1024 →
        (doAppLogWrite env msg st).1.appArchives = st.appArchives
        ∧ (doAppLogWrite env msg st).1.appFileClosed = st.appFileClosed
        ∧ Event.rotationFailedLogged ∉ (doAppLogWrite env msg st).2.1
        ∧ Event.statErrorLogged ∉ (doAppLogWrite env msg st).2.1)
    ∧ (env.statErr = false → st.appFileSize > st.aLogMaxSize * 1024 →
        env.archiveStatErr = false → env.renameErr = false → env.reopenErr = false →
        ∃ k, (doAppLogWrite env msg st).1.appArchives
            = archiveName st.aLogFolder env.date k st.aLogName :: st.appArchives
          ∧ (doAppLogWrite env msg st).1.appFileClosed = false
          ∧ (doAppLogWrite env msg st).1.aLogSuffix = k + 1)
    ∧ (env.statErr = true →
        Event.statErrorLogged ∈ (doAppLogWrite env msg st).2.1
        ∧ (doAppLogWrite env msg st).1.appArchives = st.appArchives
        ∧ (doAppLogWrite env msg st).1.appFileClosed = st.appFileClosed
        ∧ (∃ b, Event.fileWrite msg b ∈ (doAppLogWrite env msg st).2.1))
    ∧ (env.statErr = false → st.appFileSize > st.aLogMaxSize * 1024 →
        env.archiveStatErr = false → env.renameErr = true →
        Event.rotationFailedLogged ∈ (doAppLogWrite env msg st).2.1
        ∧ (doAppLogWrite env msg st).1.appFileClosed = true
        ∧ Event.fileWrite msg false ∈ (doAppLogWrite env msg st).2.1)
    ∧ (doAppLogWrite env msg st).2.2 = none := by
  refine ⟨rfl, ?_, ?_, ?_, ?_, ?_, rfl⟩
  · cases hse : env.statErr
    · by_cases hgt : st.appFileSize > st.aLogMaxSize * 1024
      · cases hrot : rotate st.aLogFolder st.aLogName env st.appArchives st.aLogSuffix <;>
          cases hcl : st.appFileClosed <;>
          simp [doAppLogWrite, hcnt, hse, hgt, needRotation, hrot, hcl]
      · cases hcl : st.appFileClosed <;>
          simp [doAppLogWrite, hcnt, hse, hgt, needRotation, hcl]
    · cases hcl : st.appFileClosed <;> simp [doAppLogWrite, hcnt, hse, needRotation, hcl]
  · intro hse hle
    have hgt : ¬(st.appFileSize > st.aLogMaxSize * 1024) := by omega
    cases hstd : st.logToStdOut <;> cases hcl : st.appFileClosed <;>
      simp [doAppLogWrite, hcnt, hse, hgt, needRotation, hstd, hcl]
  · intro hse hgt hsa hre hro
    obtain ⟨k, g1, g2, g3, g4⟩ :=
      rotate_spec st.aLogFolder st.aLogName env st.appArchives st.aLogSuffix hsa
    rw [hre, hro] at g4
    simp only [Bool.false_eq_true, if_false] at g4
    exact ⟨k, by simp [doAppLogWrite, hcnt, hse, hgt, needRotation, g4],
      by simp [doAppLogWrite, hcnt, hse, hgt, needRotation, g4],
      by simp [doAppLogWrite, hcnt, hse, hgt, needRotation, g4]⟩
  · intro hse
    refine ⟨?_, ?_, ?_, ?_⟩
    · cases hcl : st.appFileClosed <;> simp [doAppLogWrite, hcnt, hse, needRotation, hcl]
    · cases hcl : st.appFileClosed <;> simp [doAppLogWrite, hcnt, hse, needRotation, hcl]
    · cases hcl : st.appFileClosed <;> simp [doAppLogWrite, hcnt, hse, needRotation, hcl]
    · cases hcl : st.appFileClosed
      · exact ⟨true, by simp [doAppLogWrite, hcnt, hse, needRotation, hcl]⟩
      · exact ⟨false, by simp [doAppLogWrite, hcnt, hse, needRotation, hcl]⟩
  · intro hse hgt hsa hre
    obtain ⟨k, g1, g2, g3, g4⟩ :=
      rotate_spec st.aLogFolder st.aLogName env st.appArchives st.aLogSuffix hsa
    rw [hre] at g4
    simp only [if_true] at g4
    refine ⟨?_, ?_, ?_⟩ <;> simp [doAppLogWrite, hcnt, hse, hgt, needRotation, g4]

/-- Witness for C5 on the package-default state (counter 0, 1024 KB limit)
with a failing rename during a needed rotation. -/
theorem c5_rotation_check_witness :
    initialState.aRotateCounter = 0
    ∧ (doAppLogWrite ⟨false, false, true, false, "2024-01-02"⟩ "x"
        { initialState with appFileSize := 1048577, appFileClosed := false }).1.aRotateCounter = 0
    ∧ Event.rotationFailedLogged ∈ (doAppLogWrite ⟨false, false, true, false, "2024-01-02"⟩ "x"
        { initialState with appFileSize := 1048577, appFileClosed := false }).2.1
    ∧ (doAppLogWrite ⟨false, false, true, false, "2024-01-02"⟩ "x"
        { initialState with appFileSize := 1048577, appFileClosed := false }).1.appFileClosed = true
    ∧ Event.fileWrite "x" false ∈ (doAppLogWrite ⟨false, false, true, false, "2024-01-02"⟩ "x"
        { initialState with appFileSize := 1048577, appFileClosed := false }).2.1 := by
  obtain ⟨w1, w2, _, _, _, w6, _⟩ :=
    c5_rotation_check_before_every_write
      { initialState with appFileSize := 1048577, appFileClosed := false }
      ⟨false, false, true, false, "2024-01-02"⟩ "x" rfl
  obtain ⟨u1, u2, u3⟩ := w6 rfl (by decide) rfl rfl
  exact ⟨w1, w2, u1, u2, u3⟩

/-- `doAppLogWrite` never produces the worker's stderr record for a failed
message write. -/
theorem unableToLog_not_in_write_events (env : WriteEnv) (msg m : String) (st : EngineState) :
    Event.unableToLogLogged m ∉ (doAppLogWrite env msg st).2.1 := by
  by_cases hc : st.aRotateCounter ≤ 9
  all_goals cases hse : env.statErr
  · by_cases hgt : st.appFileSize > st.aLogMaxSize * 1024
    · cases hrot : rotate st.aLogFolder st.aLogName env st.appArchives st.aLogSuffix <;>
        cases hcl : st.appFileClosed <;> cases hstd : st.logToStdOut <;>
        simp [doAppLogWrite, hse, hgt, needRotation, hrot, hcl, hstd, hc]
    · cases hcl : st.appFileClosed <;> cases hstd : st.logToStdOut <;>
        simp [doAppLogWrite, hse, hgt, needRotation, hcl, hstd, hc]
  · cases hcl : st.appFileClosed <;> cases hstd : st.logToStdOut <;>
      simp [doAppLogWrite, hse, needRotation, hcl, hstd, hc]
  · cases hcl : st.appFileClosed <;> cases hstd : st.logToStdOut <;>
      simp [doAppLogWrite, hse, needRotation, hcl, hstd, hc]
  · cases hcl : st.appFileClosed <;> cases hstd : st.logToStdOut <;>
      simp [doAppLogWrite, hse, needRotation, hcl, hstd, hc]

/-- The worker loop never logs a write failure: the error branch of
`appLogWrite` is unreachable because `doAppLogWrite` always returns nil. -/
theorem appLogWrite_no_error_logged (items : List (WriteEnv × String)) (st : EngineState)
    (m : String) : Event.unableToLogLogged m ∉ (appLogWrite items st).2 := by
  induction items generalizing st with
  | nil => simp [appLogWrite]
  | cons it rest ih =>
    by_cases h0 : it.2 = ""
    · rw [appLogWrite, if_pos h0]
      exact ih st
    · simp only [appLogWrite, if_neg h0, doAppLogWrite_err_none]
      simp only [List.mem_append, not_or]
      exact ⟨unableToLog_not_in_write_events it.1 it.2 m st, ih _⟩

/-- Claim C9: the message is dropped and the worker continues on a failed
disk write, and no error reaches the submitting caller — but the failure is
never logged anywhere: `doAppLogWrite` discards the result of the file write
and returns nil unconditionally, so the worker's stderr branch is dead code.
The concrete run shows a failed write (handle unusable) producing no error
record and a nil error. -/
theorem c9_write_error_swallowed :
    (∀ (env : WriteEnv) (msg : String) (st : EngineState),
        (doAppLogWrite env msg st).2.2 = none)
    ∧ (∀ (items : List (WriteEnv × String)) (st : EngineState) (m : String),
        Event.unableToLogLogged m ∉ (appLogWrite items st).2)
    ∧ (∀ (env : WriteEnv) (rest : List (WriteEnv × String)) (st : EngineState),
        appLogWrite ((env, "boom") :: rest) st
          = ((appLogWrite rest (doAppLogWrite env "boom" st).1).1,
             (doAppLogWrite env "boom" st).2.1
               ++ (appLogWrite rest (doAppLogWrite env "boom" st).1).2))
    ∧ (doAppLogWrite ⟨false, false, false, false, "2024-01-02"⟩ "x" initialState).2
        = ([Event.mirror "x", Event.fileWrite "x" false], none) := by
  refine ⟨doAppLogWrite_err_none, appLogWrite_no_error_logged, ?_, by decide⟩
  intro env rest st
  simp only [appLogWrite, doAppLogWrite_err_none]
  simp

/-! ### Purge -/

/-- Claim C7: one purge scan attempts removal of exactly the entries whose
name carries the stream's base-name suffix and whose modification time is
strictly before now minus maxAge days; an entry at or after the cutoff is
never removed; a ReadDir failure is only logged; removal failures are logged
per entry and do not affect the rest of the scan, and errors in one scan
round leave later rounds of the loop unchanged. -/
theorem c7_purge_scan (folder suffix : String) (maxAge now : Int)
    (files : List DirEntry) (removeErr : String → Bool)
    (hnodup : (files.map DirEntry.name).Nodup) :
    (∀ f ∈ files, hasSuffix f.name suffix = true → f.modTime < now - maxAge * nsPerDay →
        removeErr (folder ++ "/" ++ f.name) = false →
        Event.purgeRemoved (folder ++ "/" ++ f.name)
          ∈ purgeScan folder suffix maxAge now (some files) removeErr)
    ∧ (∀ f ∈ files, hasSuffix f.name suffix = true → f.modTime < now - maxAge * nsPerDay →
        removeErr (folder ++ "/" ++ f.name) = true →
        Event.purgeRemoveErrorLogged (folder ++ "/" ++ f.name)
          ∈ purgeScan folder suffix maxAge now (some files) removeErr)
    ∧ (∀ p, Event.purgeRemoved p ∈ purgeScan folder suffix maxAge now (some files) removeErr →
        ∃ f, f ∈ files ∧ p = folder ++ "/" ++ f.name ∧ hasSuffix f.name suffix = true
          ∧ f.modTime < now - maxAge * nsPerDay ∧ removeErr p = false)
    ∧ (∀ f ∈ files, ¬(f.modTime < now - maxAge * nsPerDay) →
        Event.purgeRemoved (folder ++ "/" ++ f.name)
          ∉ purgeScan folder suffix maxAge now (some files) removeErr)
    ∧ purgeScan folder suffix maxAge now none removeErr
        = [Event.purgeReadDirErrorLogged folder]
    ∧ (∀ rounds1 rounds2, purgeFiles folder suffix maxAge (rounds1 ++ rounds2)
        = purgeFiles folder suffix maxAge rounds1 ++ purgeFiles folder suffix maxAge rounds2) := by
  refine ⟨?_, ?_, ?_, ?_, rfl, ?_⟩
  · intro f hf h1 h2 h3
    simp only [purgeScan, List.mem_flatMap]
    exact ⟨f, hf, by simp [h1, h2, h3]⟩
  · intro f hf h1 h2 h3
    simp only [purgeScan, List.mem_flatMap]
    exact ⟨f, hf, by simp [h1, h2, h3]⟩
  · intro p hp
    simp only [purgeScan, List.mem_flatMap] at hp
    obtain ⟨f, hf, hmem⟩ := hp
    by_cases h1 : hasSuffix f.name suffix = true
    · by_cases h2 : f.modTime < now - maxAge * nsPerDay
      · by_cases h3 : removeErr (folder ++ "/" ++ f.name) = true
        · simp [h1, h2, h3] at hmem
        · simp only [h1, if_true, if_pos h2, if_neg h3, List.mem_singleton] at hmem
          have hp' : p = folder ++ "/" ++ f.name := by
            cases hmem
            rfl
          refine ⟨f, hf, hp', h1, h2, ?_⟩
          rw [hp']
          revert h3
          cases removeErr (folder ++ "/" ++ f.name) <;> simp
      · simp [h1, h2] at hmem
    · simp [h1] at hmem
  · intro f hf hnew hmem
    simp only [purgeScan, List.mem_flatMap] at hmem
    obtain ⟨g, hg, hgm⟩ := hmem
    by_cases h1 : hasSuffix g.name suffix = true
    · by_cases h2 : g.modTime < now - maxAge * nsPerDay
      · by_cases h3 : removeErr (folder ++ "/" ++ g.name) = true
        · simp [h1, h2, h3] at hgm
        · simp only [h1, if_true, if_pos h2, if_neg h3, List.mem_singleton] at hgm
          have hname : f.name = g.name := by
            have := hgm
            injection this with hpath
            exact string_append_cancel_left (folder ++ "/") f.name g.name hpath
          have hfg : f = g := List.inj_on_of_nodup_map hnodup hf hg hname
          rw [hfg] at hnew
          exact hnew h2
      · simp [h1, h2] at hgm
    · simp [h1] at hgm
  · intro rounds1 rounds2
    simp [purgeFiles]

/-- Witness for C7 on a concrete folder listing: the old matching file is
removed, the fresh one is not. -/
theorem c7_purge_scan_witness :
    Event.purgeRemoved ("logs" ++ "/" ++ "2024-01-01-0-application.log")
      ∈ purgeScan "logs" "application.log" 10 (1700000000000000000 : Int)
          (some [⟨"2024-01-01-0-application.log", 0⟩, ⟨"2024-01-02-0-application.log",
            1700000000000000000⟩]) (fun _ => false)
    ∧ Event.purgeRemoved ("logs" ++ "/" ++ "2024-01-02-0-application.log")
      ∉ purgeScan "logs" "application.log" 10 (1700000000000000000 : Int)
          (some [⟨"2024-01-01-0-application.log", 0⟩, ⟨"2024-01-02-0-application.log",
            1700000000000000000⟩]) (fun _ => false) := by
  obtain ⟨w1, _, _, w4, _, _⟩ := c7_purge_scan "logs" "application.log" 10
    (1700000000000000000 : Int)
    [⟨"2024-01-01-0-application.log", 0⟩, ⟨"2024-01-02-0-application.log", 1700000000000000000⟩]
    (fun _ => false) (by decide)
  exact ⟨w1 ⟨"2024-01-01-0-application.log", 0⟩ (by simp) (by decide) (by decide) rfl,
    w4 ⟨"2024-01-02-0-application.log", 1700000000000000000⟩ (by simp) (by decide)⟩

end Gol
